import Mathlib

/-!
Verification of the drive-ev-datachecker core: a shallow embedding of the
reconciliation engine (`src/comparator.ts`) and the extraction orchestrator
(`src/scraper.ts`, provided as an unnamed source file) in Lean 4, together
with theorems settling the specification's claims about them.

Conventions of the embedding:
* TypeScript numbers resulting from `parseFloat` over the numeric tokens the
  code extracts are modelled as rationals (`ℚ`); every token the code parses
  is a plain decimal literal, small enough that IEEE rounding never changes
  the comparison results proved here.
* `Record<string, string>` objects are modelled as association lists in
  insertion order; `Object.keys` is the list of first components.
* Status unions such as `"match" | "mismatch" | "missing"` are kept as the
  literal strings the code uses.
* External effects (HTTP fetch, cheerio HTML selection, Playwright, the URL
  parser, the config directory) are parameters of a `ScrapeEnv` record: each
  is a total function whose `Option`/empty-string result encodes the failure
  channel the code itself absorbs (`fetchWithRetry` returns `""`, the other
  collaborators return `null` on any failure).
-/

namespace DriveEV

/-! ### Character-level helpers shared by the embedded string operations -/

/-- `needle.isPrefixOf hay` on char lists (exact, case-sensitive). -/
def isPrefixList : List Char → List Char → Bool
  | [], _ => true
  | _ :: _, [] => false
  | a :: as, b :: bs => a == b && isPrefixList as bs

/-- JS `hay.includes(needle)`: substring containment (true for the empty needle). -/
def containsSub : List Char → List Char → Bool
  | [], needle => isPrefixList needle []
  | c :: cs, needle => isPrefixList needle (c :: cs) || containsSub cs needle

/-- JS `String.trim()`: drop leading and trailing whitespace. -/
def trimChars (cs : List Char) : List Char :=
  ((cs.dropWhile Char.isWhitespace).reverse.dropWhile Char.isWhitespace).reverse

/-! ### `extractNumbers` (comparator.ts lines 156-162)

The regex `/[\d]+(?:[.,]\d+)*/g` is embedded as a left-to-right maximal-munch
scanner with three states: outside a token, inside the digit run, and just
after a `.`/`,` separator (which joins the token only when a digit follows,
exactly as the regex group `(?:[.,]\d+)*` demands).  The scanner consumes one
character per step, so fuel equal to the input length makes it total while
keeping the recursion structural (hence kernel-reducible). -/

inductive TokState where
  /-- Outside a numeric token; a digit starts one. -/
  | out : TokState
  /-- Inside a token; the field is the token so far, reversed. -/
  | inside : List Char → TokState
  /-- Just saw a `.`/`,` separator after digits; it joins the token only if a
  digit follows, otherwise the match ends before the separator. -/
  | afterSep : List Char → Char → TokState
deriving DecidableEq, Repr

/-- End of input: emit the pending token, if any. -/
def tokFlush : TokState → List (List Char)
  | .out => []
  | .inside acc => [acc.reverse]
  | .afterSep acc _ => [acc.reverse]

/-- One-character-per-step scanner for `/[\d]+(?:[.,]\d+)*/g`.  When a match
ends at a non-digit character, the regex engine resumes scanning right there;
that character can never start a new token, so the scanner simply skips it. -/
def tokRun : Nat → TokState → List Char → List (List Char)
  | 0, st, _ => tokFlush st
  | _ + 1, st, [] => tokFlush st
  | fuel + 1, .out, c :: cs =>
    if c.isDigit then tokRun fuel (.inside [c]) cs else tokRun fuel .out cs
  | fuel + 1, .inside acc, c :: cs =>
    if c.isDigit then tokRun fuel (.inside (c :: acc)) cs
    else if c == '.' || c == ',' then tokRun fuel (.afterSep acc c) cs
    else acc.reverse :: tokRun fuel .out cs
  | fuel + 1, .afterSep acc sep, c :: cs =>
    if c.isDigit then tokRun fuel (.inside (c :: sep :: acc)) cs
    else acc.reverse :: tokRun fuel .out cs

/-- All matches of `/[\d]+(?:[.,]\d+)*/g` over the characters of the input. -/
def tokenize (cs : List Char) : List (List Char) :=
  tokRun cs.length .out cs

/-- Numeric value of a digit run (most significant first). -/
def digitsVal (ds : List Char) : Nat :=
  ds.foldl (fun n c => 10 * n + (c.toNat - 48)) 0

/-- JS `parseFloat` restricted to the comma-stripped tokens of the scanner:
these consist of digit runs joined by dots, and `parseFloat` reads the longest
valid prefix `digits[.digits]`, ignoring anything from a second dot on. -/
def parseFloatTok (cs : List Char) : ℚ :=
  let intPart := cs.takeWhile Char.isDigit
  match cs.dropWhile Char.isDigit with
  | '.' :: r =>
    let frac := r.takeWhile Char.isDigit
    mkRat (digitsVal intPart * 10 ^ frac.length + digitsVal frac) (10 ^ frac.length)
  | _ => (digitsVal intPart : ℚ)

/-- comparator.ts `extractNumbers`: all regex tokens, commas removed, parsed,
keeping only values `> 0`.  (`isNaN` can never fire: every token starts with a
digit, so `parseFloat` always yields a number.) -/
def extractNumbers (val : String) : List ℚ :=
  ((tokenize val.data).map fun t => parseFloatTok (t.filter fun c => c != ',')).filter
    fun n => decide (0 < n)

/-! ### Price comparison (comparator.ts lines 169-219) -/

/-- comparator.ts `FieldComparison`. -/
structure FieldComparison where
  excel : String
  scraped : List (String × String)
  status : String
  note : Option String
deriving DecidableEq, Repr

/-- JS `Math.min(...xs)`; only ever applied to non-empty lists (the `[]` value
is irrelevant and never reached). -/
def listMin : List ℚ → ℚ
  | [] => 0
  | x :: xs => xs.foldl min x

/-- JS `Math.max(...xs)`; only ever applied to non-empty lists. -/
def listMax : List ℚ → ℚ
  | [] => 0
  | x :: xs => xs.foldl max x

/-- comparator.ts lines 195-199: all numeric values of all scraped sources, in
source order (`allScrapedPrices.push(...nums)`). -/
def allScrapedNums (scrapedValues : List (String × String)) : List ℚ :=
  scrapedValues.foldl (fun acc p => acc ++ extractNumbers p.2) []

/-- comparator.ts `comparePriceField`.  The notes carry the code's fixed text;
the interpolated `toLocaleString` figures are presentation only and elided. -/
def comparePriceField (excelValue : String) (scrapedValues : List (String × String)) :
    FieldComparison :=
  let sources := scrapedValues.map Prod.fst
  if sources.length = 0 then
    { excel := excelValue, scraped := scrapedValues, status := "missing",
      note := some "No scraped data available for this field" }
  else
    let excelNumbers := extractNumbers excelValue
    if excelNumbers.length = 0 then
      { excel := excelValue, scraped := scrapedValues, status := "mismatch",
        note := some "Could not parse Excel price as a number" }
    else
      let excelPrice := excelNumbers.headD 0
      let allScrapedPrices := allScrapedNums scrapedValues
      if allScrapedPrices.length = 0 then
        { excel := excelValue, scraped := scrapedValues, status := "mismatch",
          note := some "Could not parse any scraped price as a number" }
      else
        if listMin allScrapedPrices ≤ excelPrice ∧ excelPrice ≤ listMax allScrapedPrices then
          { excel := excelValue, scraped := scrapedValues, status := "match",
            note := some "Excel price is within scraped range" }
        else
          { excel := excelValue, scraped := scrapedValues, status := "mismatch",
            note := some "Excel price is outside scraped range" }

/-! ### Value normalization (comparator.ts lines 26-69) -/

/-- comparator.ts `VALUE_SYNONYMS`, in source order (object-literal insertion
order, which `Object.entries` preserves). -/
def VALUE_SYNONYMS : List (String × List String) :=
  [("electric", ["bev", "electric", "battery electric", "battery electric vehicle",
     "full electric"]),
   ("plug-in hybrid", ["phev", "plug-in hybrid", "plug-in hybrid electric"]),
   ("hybrid", ["hev", "hybrid", "hybrid electric"]),
   ("fuel cell", ["fcev", "fuel cell", "hydrogen fuel cell"]),
   ("rwd", ["rwd", "rear-wheel drive", "rear wheel drive"]),
   ("fwd", ["fwd", "front-wheel drive", "front wheel drive"]),
   ("awd", ["awd", "4wd", "all-wheel drive", "all wheel drive", "four-wheel drive"]),
   ("automatic", ["automatic", "auto", "at", "cvt", "dct", "single-speed"]),
   ("manual", ["manual", "mt"])]

/-- JS `val.toLowerCase().trim()`. -/
def lowerTrim (val : String) : String :=
  String.mk (trimChars (val.data.map Char.toLower))

/-- comparator.ts `getCanonicalValue`: first synonym group containing the
lowercased, trimmed value, else the value itself. -/
def getCanonicalValue (val : String) : String :=
  let lower := lowerTrim val
  match VALUE_SYNONYMS.find? fun p => p.2.contains lower with
  | some p => p.1
  | none => lower

/-- The alternatives of the unit/currency regex in comparator.ts line 65, in
source order (JS tries alternatives left to right at every position). -/
def UNIT_TOKENS : List String :=
  ["AED", "USD", "EUR", "SAR", "km/h", "kWh", "km", "hp", "bhp", "kW", "kg", "mm",
   "nm", "sec", "seater", "seats", "seat"]

/-- JS regex `\w` (`\b` is defined in terms of it): ASCII letter, digit or `_`. -/
def isWordChar (c : Char) : Bool := c.isAlphanum || c == '_'

/-- Case-insensitive literal prefix match (the regex carries the `i` flag);
returns the remainder after the matched token. -/
def stripPrefixCI : List Char → List Char → Option (List Char)
  | [], cs => some cs
  | _ :: _, [] => none
  | t :: ts, c :: cs => if t.toLower == c.toLower then stripPrefixCI ts cs else none

/-- Try each unit token at the head of `cs`, in alternation order.  A token
that matches character-wise must also satisfy the trailing `\b`: every token
ends in a letter, so the boundary holds exactly when the next character is a
non-word character or the end of input.  On a boundary failure the regex
engine tries the next alternative at the same position. -/
def tryUnitTokens : List String → List Char → Option (List Char)
  | [], _ => none
  | t :: ts, cs =>
    match stripPrefixCI t.data cs with
    | some rest =>
      match rest with
      | [] => some []
      | c :: _ => if isWordChar c then tryUnitTokens ts cs else some rest
    | none => tryUnitTokens ts cs

/-- Left-to-right pass of `replace(/\b(units)\b/gi, "")`.  `prevWord` records
whether the previous character was a word character: every token starts with a
letter, so the leading `\b` holds exactly when `prevWord` is false.  After a
removal the last consumed character was a letter, so `prevWord` resumes true.
One character (or token) is consumed per step, so fuel = input length makes
the recursion structural. -/
def removeUnitsAux : Nat → Bool → List Char → List Char
  | 0, _, cs => cs
  | _ + 1, _, [] => []
  | fuel + 1, prevWord, c :: cs =>
    if prevWord then c :: removeUnitsAux fuel (isWordChar c) cs
    else
      match tryUnitTokens UNIT_TOKENS (c :: cs) with
      | some rest => removeUnitsAux fuel true rest
      | none => c :: removeUnitsAux fuel (isWordChar c) cs

/-- comparator.ts line 65: strip the unit/currency tokens at word boundaries. -/
def removeUnits (cs : List Char) : List Char :=
  removeUnitsAux cs.length false cs

/-- comparator.ts `normalizeValue`: strip unit tokens at word boundaries, drop
commas and whitespace (`replace(/[,\s]/g, "")`), trim, lowercase. -/
def normalizeValue (val : String) : String :=
  let removed := removeUnits val.data
  let stripped := removed.filter fun c => !(c == ',' || c.isWhitespace)
  String.mk ((trimChars stripped).map Char.toLower)

/-! ### Generic field comparison (comparator.ts lines 225-270) -/

/-- The per-source test of comparator.ts line 252: normalized forms agree or
canonical forms agree. -/
def fieldValueAgrees (excelValue scrapedValue : String) : Bool :=
  normalizeValue excelValue == normalizeValue scrapedValue ||
    getCanonicalValue excelValue == getCanonicalValue scrapedValue

/-- comparator.ts `compareField`.  The source loop sets `hasMatch` on sources
passing the test and `hasMismatch` on sources failing it, which is exactly the
two `any` queries below. -/
def compareField (excelValue : String) (scrapedValues : List (String × String)) :
    FieldComparison :=
  let sources := scrapedValues.map Prod.fst
  if sources.length = 0 then
    { excel := excelValue, scraped := scrapedValues, status := "missing",
      note := some "No scraped data available for this field" }
  else
    let hasMatch := scrapedValues.any fun p => fieldValueAgrees excelValue p.2
    let hasMismatch := scrapedValues.any fun p => ! fieldValueAgrees excelValue p.2
    if hasMatch && !hasMismatch then
      { excel := excelValue, scraped := scrapedValues, status := "match", note := none }
    else if hasMatch && hasMismatch then
      { excel := excelValue, scraped := scrapedValues, status := "mismatch",
        note := some "Value matches some sources but not all" }
    else
      { excel := excelValue, scraped := scrapedValues, status := "mismatch",
        note := some "Value does not match any scraped source" }

/-! ### Field alias resolution (comparator.ts lines 76-150) -/

/-- comparator.ts `FIELD_ALIASES`, in source order. -/
def FIELD_ALIASES : List (List String) :=
  [["battery_(kwh)", "battery_size", "battery_capacity", "engine_size", "battery"],
   ["seats", "seating_capacity", "seating", "seater"],
   ["drivetrain", "drive_type", "driven_wheels"],
   ["range_(km)", "battery_range", "range", "electric_range"],
   ["wltp_range_(km)", "wltp_range"],
   ["0-100_(s)", "acceleration_(0-100_km/h)", "acceleration", "0-100_kmh", "0_to_100"],
   ["top_speed_(km/h)", "top_speed", "max_speed"],
   ["fuel_type", "engine_type", "fuel"],
   ["type", "vehicle_type", "vehicle_category"],
   ["body_type", "body_style"],
   ["charging_(kw_ac)", "ac_charging", "charging_ac"],
   ["charging_(kw_dc)", "dc_charging", "charging_dc", "fast_charging"],
   ["energy_consumption_(kwh/100km)", "energy_consumption", "consumption"],
   ["group", "brand_group", "manufacturer_group"],
   ["price", "price_range"],
   ["horsepower", "horsepower_(bhp)", "power", "max_power"],
   ["torque", "max_torque"],
   ["weight", "curb_weight", "kerb_weight"],
   ["length", "overall_length"],
   ["width", "overall_width"],
   ["height", "overall_height"],
   ["boot_space", "trunk_space", "cargo_capacity", "cargo_volume"]]

/-- JS `replace(/[_\s-]/g, "")`. -/
def stripSeparators (cs : List Char) : List Char :=
  cs.filter fun c => !(c == '_' || c == '-' || c.isWhitespace)

/-- The normalization of comparator.ts `getFieldAliases` (line 105): strip
separators, lowercase. -/
def aliasNorm (s : String) : String :=
  String.mk ((stripSeparators s.data).map Char.toLower)

/-- comparator.ts `getFieldAliases`: first alias group containing the
normalized field name, else the singleton of the name itself. -/
def getFieldAliases (fieldName : String) : List String :=
  let normalized := aliasNorm fieldName
  match FIELD_ALIASES.find? fun group => group.any fun al => aliasNorm al == normalized with
  | some group => group
  | none => [fieldName]

/-- Scan for the first `)` — `.` in `/\(.*?\)/` matches any character except a
newline (`(` included), so a lazy match runs to the first `)` unless a newline
intervenes first. -/
def findCloseParen : List Char → Option (List Char)
  | [] => none
  | c :: cs => if c == ')' then some cs else if c == '\n' then none else findCloseParen cs

/-- JS `replace(/\(.*?\)/g, "")`: drop every lazily matched `(...)` group;
an unmatched `(` is kept and scanning moves on.  Each step consumes at least
one character, so fuel = input length suffices. -/
def stripParenAux : Nat → List Char → List Char
  | 0, cs => cs
  | _ + 1, [] => []
  | fuel + 1, c :: cs =>
    if c == '(' then
      match findCloseParen cs with
      | some rest => stripParenAux fuel rest
      | none => c :: stripParenAux fuel cs
    else c :: stripParenAux fuel cs

/-- The `normalize` closure of comparator.ts `findMatchingKey` (lines
123-127): strip separators, then parenthesised groups, then lowercase. -/
def keyNorm (s : String) : String :=
  let sep := stripSeparators s.data
  String.mk ((stripParenAux sep.length sep).map Char.toLower)

/-- comparator.ts `findMatchingKey`: direct fuzzy match first, then the alias
group of the target, each alias fuzzily matched against the keys in order. -/
def findMatchingKey (target : String) (keys : List String) : Option String :=
  let normalizedTarget := keyNorm target
  match keys.find? fun key => keyNorm key == normalizedTarget with
  | some key => some key
  | none =>
    (getFieldAliases target).findSome? fun al =>
      keys.find? fun key => keyNorm key == keyNorm al

/-! ### Entry comparison (comparator.ts lines 275-350) -/

/-- excel-parser.ts `ExcelEntry`; `specs` in column order. -/
structure ExcelEntry where
  rowNumber : Nat
  brand : String
  model : String
  variant : String
  price : String
  specs : List (String × String)
deriving DecidableEq, Repr

/-- The element type of `compareEntry`'s `scrapedResults` parameter. -/
structure ScrapedSource where
  source : String
  price : String
  specs : List (String × String)
  variants : List String
deriving DecidableEq, Repr

/-- comparator.ts `ComparisonResult.variantCheck`. -/
structure VariantCheck where
  excel : String
  foundOnSites : List String
  notFoundOnSites : List String
  status : String
deriving DecidableEq, Repr

/-- comparator.ts `ComparisonResult`; `fields` in insertion order ("price"
first, then the entry's spec fields). -/
structure ComparisonResult where
  rowNumber : Nat
  car : String
  fields : List (String × FieldComparison)
  variantCheck : VariantCheck
deriving DecidableEq, Repr

/-- comparator.ts lines 319-321: some reported variant contains the
lowercased authoritative variant, case-insensitively. -/
def variantFoundOn (excelVariantLower : String) (r : ScrapedSource) : Bool :=
  r.variants.any fun v => containsSub (v.data.map Char.toLower) excelVariantLower.data

/-- The status cascade of comparator.ts lines 330-337, as a function of the
number of sites where the variant was found and the number of sources. -/
def variantStatus (foundCount total : Nat) : String :=
  if foundCount = total then "match"
  else if 0 < foundCount then "partial"
  else "missing"

/-- comparator.ts `compareEntry`. -/
def compareEntry (excelEntry : ExcelEntry) (scrapedResults : List ScrapedSource) :
    ComparisonResult :=
  let car := String.mk (trimChars (excelEntry.brand ++ " " ++ excelEntry.model).data)
  let priceScraped :=
    (scrapedResults.filter fun r => r.price != "").map fun r => (r.source, r.price)
  let fields :=
    ("price", comparePriceField excelEntry.price priceScraped) ::
      excelEntry.specs.map fun sp =>
        let specScraped := scrapedResults.filterMap fun r =>
          match findMatchingKey sp.1 (r.specs.map Prod.fst) with
          | some matchedKey => (r.specs.lookup matchedKey).map fun v => (r.source, v)
          | none => none
        (sp.1, compareField sp.2 specScraped)
  let excelVariantLower := String.mk (excelEntry.variant.data.map Char.toLower)
  let foundOnSites :=
    (scrapedResults.filter (variantFoundOn excelVariantLower)).map ScrapedSource.source
  let notFoundOnSites :=
    (scrapedResults.filter fun r => ! variantFoundOn excelVariantLower r).map
      ScrapedSource.source
  { rowNumber := excelEntry.rowNumber, car := car, fields := fields,
    variantCheck := { excel := excelEntry.variant, foundOnSites := foundOnSites,
                      notFoundOnSites := notFoundOnSites,
                      status := variantStatus foundOnSites.length scrapedResults.length } }

/-! ### Extraction orchestrator (scraper.ts, unnamed source file)

Strategies: `"api" | "cheerio" | "playwright"` — the spec's api /
static-html / headless-browser. -/

inductive Strategy where
  | api : Strategy
  | cheerio : Strategy
  | playwright : Strategy
deriving DecidableEq, Repr, Fintype

/-- api-fetcher.ts `ApiConfig`. -/
structure ApiConfig where
  endpoint : String
  searchPath : Option String := none
  headers : List (String × String) := []
  titlePath : Option String := none
  pricePath : Option String := none
  specsPath : Option String := none
  variantsPath : Option String := none
deriving DecidableEq, Repr

/-- scraper.ts `SiteConfig.selectors`. -/
structure Selectors where
  title : Option String := none
  price : Option String := none
  specsTable : Option String := none
  specLabel : Option String := none
  specValue : Option String := none
  variants : Option String := none
  images : Option String := none
deriving DecidableEq, Repr

/-- scraper.ts `SiteConfig`; the optional `disabled?: boolean` is a `Bool`
whose absent/`false`/`undefined` cases are all falsy, modelled as `false`. -/
structure SiteConfig where
  name : String
  baseUrl : String
  disabled : Bool := false
  disabledReason : Option String := none
  preferredStrategy : Option Strategy := none
  apiConfig : Option ApiConfig := none
  selectors : Selectors := {}
deriving DecidableEq, Repr

/-- The `data` payload of scraper.ts `ScrapedData`. -/
structure CarData where
  title : String
  price : String
  specs : List (String × String)
  variants : List String
deriving DecidableEq, Repr

/-- scraper.ts `ScrapedData`. -/
structure ScrapedData where
  source : String
  url : String
  data : CarData
  rawText : String
  strategy : Option String := none
deriving DecidableEq, Repr

/-- The all-empty payload built on every no-data path of the orchestrator. -/
def emptyCarData : CarData := { title := "", price := "", specs := [], variants := [] }

/-- What the cheerio selection step of `scrapeWithCheerio` produced from the
HTML: the four structured fields (lines 190-222) and the body text remaining
after `script, style, nav, footer, header, noscript, iframe` removal (line
226).  CSS selection itself is the external cheerio library, so it enters the
model as an oracle producing this record. -/
structure CheerioExtract where
  title : String
  price : String
  specs : List (String × String)
  variants : List String
  bodyText : String
deriving DecidableEq, Repr

/-- The orchestrator's external collaborators, as total functions.  Each
failure channel is encoded the way the source encodes it:
* `hostnameOf` models `new URL(·).hostname`; `none` is the thrown `TypeError`
  that `detectSiteKey` catches.
* `fetchHtml` models `fetchWithRetry`, which returns `""` (never throws) after
  its retries are exhausted.
* `cheerioExtract` models the cheerio selection step; `none` is an exception
  inside the `try` of `scrapeWithCheerio`, caught and turned into `null`.
* `apiFetch` models api-fetcher.ts `fetchFromApi`, which returns `null` on
  any failure ("Returns ScrapedData on success, or null on ANY failure").
* `browserScrape` models browser-scraper.ts `scrapeWithBrowser`, ditto.
`configs` is the config/sites directory keyed by file basename, as read by
`loadAllConfigs`/`loadSiteConfig` (a malformed file is an absent entry). -/
structure ScrapeEnv where
  configs : List (String × SiteConfig)
  hostnameOf : String → Option String
  fetchHtml : String → String
  cheerioExtract : String → Option SiteConfig → Option CheerioExtract
  apiFetch : String → ApiConfig → String → String → Option ScrapedData
  browserScrape : String → String → Option SiteConfig → Option ScrapedData

/-- scraper.ts `loadSiteConfig`, over the modelled store. -/
def loadSiteConfig (env : ScrapeEnv) (siteKey : String) : Option SiteConfig :=
  env.configs.lookup siteKey

/-- scraper.ts `detectSiteKey`: first config whose base-URL host equals the
target's host or is a parent domain of it; if either URL fails to parse, fall
back to `url.includes(key)`. -/
def detectSiteKeyAux (env : ScrapeEnv) (url : String) :
    List (String × SiteConfig) → Option String
  | [] => none
  | (key, config) :: rest =>
    match env.hostnameOf config.baseUrl, env.hostnameOf url with
    | some configHost, some urlHost =>
      if urlHost == configHost || ("." ++ configHost).data.isSuffixOf urlHost.data then
        some key
      else detectSiteKeyAux env url rest
    | _, _ =>
      if containsSub url.data key.data then some key else detectSiteKeyAux env url rest

/-- scraper.ts `detectSiteKey` over all known configs. -/
def detectSiteKey (env : ScrapeEnv) (url : String) : Option String :=
  detectSiteKeyAux env url env.configs

/-- JS string truthiness for the `a || b` chains: the empty string is falsy. -/
def truthyStr : Option String → Option String
  | none => none
  | some s => if s = "" then none else some s

/-- scraper.ts line 295: `siteKey || detectSiteKey(url, allConfigs) || "unknown"`. -/
def resolveKey (env : ScrapeEnv) (url : String) (siteKey : Option String) : String :=
  match truthyStr siteKey with
  | some k => k
  | none =>
    match truthyStr (detectSiteKey env url) with
    | some k => k
    | none => "unknown"

/-- JS `replace(/\s+/g, " ")`: collapse every whitespace run to one space.
Each step consumes at least one character; fuel = input length suffices. -/
def collapseWsAux : Nat → List Char → List Char
  | 0, cs => cs
  | _ + 1, [] => []
  | fuel + 1, c :: cs =>
    if c.isWhitespace then ' ' :: collapseWsAux fuel (cs.dropWhile Char.isWhitespace)
    else c :: collapseWsAux fuel cs

def collapseWs (cs : List Char) : List Char :=
  collapseWsAux cs.length cs

/-- scraper.ts lines 226-230: the raw fallback text — body text with
whitespace collapsed, trimmed, truncated to 8,000 characters. -/
def cheerioRawText (ex : CheerioExtract) : String :=
  String.mk ((trimChars (collapseWs ex.bodyText.data)).take 8000)

/-- scraper.ts `scrapeWithCheerio`, lines 167-252: empty response is a miss;
otherwise build the result from the selection oracle, attach the fallback
text, and miss when no structured field (title, price, specs — variants are
not consulted) was populated and the fallback text is 100 characters or
shorter. -/
def scrapeWithCheerio (env : ScrapeEnv) (url siteKey : String)
    (config : Option SiteConfig) : Option ScrapedData :=
  let html := env.fetchHtml url
  if html = "" then none
  else
    match env.cheerioExtract html config with
    | none => none
    | some ex =>
      let rawText := cheerioRawText ex
      let hasData := ex.title != "" || ex.price != "" ||
        decide (0 < ex.specs.length) || decide (100 < rawText.length)
      if hasData then
        some { source := siteKey, url := url,
               data := { title := ex.title, price := ex.price, specs := ex.specs,
                         variants := ex.variants },
               rawText := rawText, strategy := some "cheerio" }
      else none

/-- scraper.ts lines 265-269. -/
def defaultStrategyOrder : List Strategy := [.api, .cheerio, .playwright]

/-- scraper.ts `getStrategyOrder`: the preferred strategy (if any) first,
then the rest of the default order. -/
def getStrategyOrder (config : Option SiteConfig) : List Strategy :=
  match config.bind SiteConfig.preferredStrategy with
  | none => defaultStrategyOrder
  | some preferred => preferred :: defaultStrategyOrder.filter fun s => s != preferred

/-- One arm of the `switch` in scraper.ts lines 323-348, paired with the
number of network-touching strategy invocations it performs (the api arm
skips entirely — performing no call — unless an `apiConfig` and both hints
are present; JS truthiness makes empty-string hints skip too). -/
def runStrategy (env : ScrapeEnv) (url resolvedKey : String)
    (brand model : Option String) (config : Option SiteConfig) :
    Strategy → Option ScrapedData × Nat
  | .api =>
    match config.bind SiteConfig.apiConfig, truthyStr brand, truthyStr model with
    | some apiConfig, some b, some m =>
      ((env.apiFetch resolvedKey apiConfig b m).map fun r =>
        { r with strategy := some "api" }, 1)
    | _, _, _ => (none, 0)
  | .cheerio => (scrapeWithCheerio env url resolvedKey config, 1)
  | .playwright =>
    ((env.browserScrape url resolvedKey config).map fun r =>
      { r with strategy := some "playwright" }, 1)

/-- The `for (const strategy of strategies)` loop of scraper.ts lines
318-358 plus the terminal all-failed result of lines 360-368; the second
component accumulates the strategy invocations performed. -/
def waterfall (env : ScrapeEnv) (url resolvedKey : String)
    (brand model : Option String) (config : Option SiteConfig) :
    List Strategy → ScrapedData × Nat
  | [] =>
    ({ source := resolvedKey, url := url, data := emptyCarData, rawText := "",
       strategy := some "none" }, 0)
  | s :: rest =>
    match runStrategy env url resolvedKey brand model config s with
    | (some r, n) => (r, n)
    | (none, n) =>
      let next := waterfall env url resolvedKey brand model config rest
      (next.1, n + next.2)

/-- scraper.ts `scrapeEvData` with its strategy-invocation count: resolve the
key, load the profile, short-circuit a disabled profile to the
`"skipped-disabled"` sentinel (zero strategy invocations), otherwise run the
waterfall in the computed order. -/
def scrapeEvDataC (env : ScrapeEnv) (url : String)
    (siteKey brand model : Option String) : ScrapedData × Nat :=
  let resolvedKey := resolveKey env url siteKey
  let config := if resolvedKey != "unknown" then loadSiteConfig env resolvedKey else none
  if (config.map SiteConfig.disabled).getD false then
    ({ source := resolvedKey, url := url, data := emptyCarData, rawText := "",
       strategy := some "skipped-disabled" }, 0)
  else
    waterfall env url resolvedKey brand model config (getStrategyOrder config)

/-- scraper.ts `scrapeEvData`: the returned `ScrapedData`.  Totality — one
result for every input, all failures encoded in it — holds by construction:
every collaborator enters as a total function whose failure channel is a
value, exactly as the source absorbs every exception. -/
def scrapeEvData (env : ScrapeEnv) (url : String)
    (siteKey brand model : Option String) : ScrapedData :=
  (scrapeEvDataC env url siteKey brand model).1

/-! ### General lemmas shared by several claims -/

/-- A filter keeps the whole list exactly when every element passes. -/
theorem filter_length_eq_iff {A : Type} (p : A → Bool) (l : List A) :
    (l.filter p).length = l.length ↔ ∀ x ∈ l, p x = true := by
  rw [← List.countP_eq_length_filter]
  exact List.countP_eq_length

/-- A filter is non-empty exactly when some element passes. -/
theorem filter_length_pos_iff {A : Type} (p : A → Bool) (l : List A) :
    0 < (l.filter p).length ↔ ∃ x ∈ l, p x = true := by
  simp [List.length_pos, Ne, List.filter_eq_nil_iff]

/-- A filter is empty exactly when every element fails. -/
theorem filter_length_zero_iff {A : Type} (p : A → Bool) (l : List A) :
    (l.filter p).length = 0 ↔ ∀ x ∈ l, p x = false := by
  simp [List.length_eq_zero, List.filter_eq_nil_iff]

/-- When the API oracle, the HTML fetch and the browser oracle all miss,
every single strategy invocation returns no result. -/
theorem runStrategy_miss_of_oracles (env : ScrapeEnv) (url resolvedKey : String)
    (brand model : Option String) (config : Option SiteConfig)
    (hapi : ∀ k ac b m, env.apiFetch k ac b m = none)
    (hfetch : env.fetchHtml url = "")
    (hbr : ∀ u k c, env.browserScrape u k c = none) :
    ∀ s, (runStrategy env url resolvedKey brand model config s).1 = none := by
  intro s
  cases s with
  | api =>
    simp only [runStrategy]
    rcases config.bind SiteConfig.apiConfig with _ | ac <;>
      rcases truthyStr brand with _ | b <;>
      rcases truthyStr model with _ | m <;> simp [hapi]
  | cheerio => simp [runStrategy, scrapeWithCheerio, hfetch]
  | playwright => simp [runStrategy, hbr]

/-- A missing head strategy makes the waterfall fall through to the rest. -/
theorem waterfall_cons_miss (env : ScrapeEnv) (url resolvedKey : String)
    (brand model : Option String) (config : Option SiteConfig)
    (s : Strategy) (rest : List Strategy)
    (h : (runStrategy env url resolvedKey brand model config s).1 = none) :
    (waterfall env url resolvedKey brand model config (s :: rest)).1 =
      (waterfall env url resolvedKey brand model config rest).1 := by
  have hpair : runStrategy env url resolvedKey brand model config s =
      (none, (runStrategy env url resolvedKey brand model config s).2) :=
    Prod.ext h rfl
  simp only [waterfall]
  rw [hpair]

/-- With all oracles missing, the waterfall returns the terminal
`"none"`-tagged result regardless of the strategy order. -/
theorem waterfall_all_miss (env : ScrapeEnv) (url resolvedKey : String)
    (brand model : Option String) (config : Option SiteConfig)
    (hapi : ∀ k ac b m, env.apiFetch k ac b m = none)
    (hfetch : env.fetchHtml url = "")
    (hbr : ∀ u k c, env.browserScrape u k c = none) :
    ∀ strategies : List Strategy,
      (waterfall env url resolvedKey brand model config strategies).1 =
        { source := resolvedKey, url := url, data := emptyCarData, rawText := "",
          strategy := some "none" } := by
  intro strategies
  induction strategies with
  | nil => rfl
  | cons s rest ih =>
    rw [waterfall_cons_miss env url resolvedKey brand model config s rest
      (runStrategy_miss_of_oracles env url resolvedKey brand model config hapi hfetch hbr s)]
    exact ih

/-! ## The claims -/

/-- C1: Price comparison is range-based: for every authoritative price string
whose first extracted number is `P` and every non-empty collection of scraped
price strings whose extracted numbers are non-empty with global minimum `min`
and maximum `max`, the price status is `"match"` iff `min ≤ P ≤ max` (both
boundaries inclusive), and `"mismatch"` otherwise. -/
theorem c1_price_range (excelValue : String) (scrapedValues : List (String × String))
    (P : ℚ) (rest : List ℚ)
    (hs : scrapedValues ≠ [])
    (he : extractNumbers excelValue = P :: rest)
    (hn : allScrapedNums scrapedValues ≠ []) :
    ((comparePriceField excelValue scrapedValues).status = "match" ↔
      (listMin (allScrapedNums scrapedValues) ≤ P ∧
        P ≤ listMax (allScrapedNums scrapedValues))) ∧
    ((comparePriceField excelValue scrapedValues).status = "mismatch" ↔
      ¬(listMin (allScrapedNums scrapedValues) ≤ P ∧
        P ≤ listMax (allScrapedNums scrapedValues))) := by
  simp only [comparePriceField]
  rw [if_neg (by simp [List.length_eq_zero, hs])]
  rw [if_neg (by simp [he])]
  rw [if_neg (by simpa [List.length_eq_zero] using hn)]
  simp only [he, List.headD_cons]
  split_ifs with hin
  · exact ⟨iff_of_true rfl hin, iff_of_false (by simp) (not_not_intro hin)⟩
  · exact ⟨iff_of_false (by simp) hin, iff_of_true rfl hin⟩

/-- C1 witness: the spec's own end-to-end scenario — authoritative
`174,000` against scraped `168,000 AED` and `182,000` is a `"match"`. -/
theorem c1_price_range_witness :
    (comparePriceField "174,000" [("siteA", "168,000 AED"), ("siteB", "182,000")]).status
      = "match" :=
  ((c1_price_range "174,000" [("siteA", "168,000 AED"), ("siteB", "182,000")] 174000 []
    (by decide) (by decide) (by decide)).1).mpr (by decide)

/-- The authoritative entry of the C2 counterexample. -/
def c2Entry : ExcelEntry :=
  { rowNumber := 2, brand := "BYD", model := "Seal", variant := "RWD",
    price := "174,000", specs := [] }

/-- C2 counterexample: with zero scraped sources the variant status the code
computes is `"match"` (`0 === 0` makes "found on every source" vacuously
true), not `"missing"` as the claim states. -/
theorem c2_counterexample :
    (compareEntry c2Entry []).variantCheck.status = "match" ∧
      ("match" : String) ≠ "missing" := by decide

/-- C2 (amended): the variant status is `"match"` iff the variant was found on
every source (vacuously `"match"` for zero sources), `"partial"` iff it was
found on at least one source and missed on at least one, and `"missing"` iff
there is at least one source and the variant was found on none. -/
theorem c2_variant_tristate (e : ExcelEntry) (rs : List ScrapedSource) :
    ((compareEntry e rs).variantCheck.status = "match" ↔
      ∀ r ∈ rs, variantFoundOn (String.mk (e.variant.data.map Char.toLower)) r = true) ∧
    ((compareEntry e rs).variantCheck.status = "partial" ↔
      ((∃ r ∈ rs, variantFoundOn (String.mk (e.variant.data.map Char.toLower)) r = true) ∧
       (∃ r ∈ rs, variantFoundOn (String.mk (e.variant.data.map Char.toLower)) r = false))) ∧
    ((compareEntry e rs).variantCheck.status = "missing" ↔
      (rs ≠ [] ∧
        ∀ r ∈ rs, variantFoundOn (String.mk (e.variant.data.map Char.toLower)) r = false)) := by
  set p := variantFoundOn (String.mk (e.variant.data.map Char.toLower)) with hp
  have hst : (compareEntry e rs).variantCheck.status =
      variantStatus ((rs.filter p).map ScrapedSource.source).length rs.length := rfl
  rw [hst, List.length_map]
  unfold variantStatus
  by_cases h1 : (rs.filter p).length = rs.length
  · have hall := (filter_length_eq_iff p rs).mp h1
    simp only [h1, if_true]
    refine ⟨⟨fun _ => hall, fun _ => trivial⟩, ?_, ?_⟩
    · refine iff_of_false (by decide) ?_
      rintro ⟨-, r, hr, hfalse⟩
      have := hall r hr
      simp [this] at hfalse
    · refine iff_of_false (by decide) ?_
      rintro ⟨hne, hnone⟩
      rcases List.exists_mem_of_ne_nil rs hne with ⟨r, hr⟩
      have ha := hall r hr
      have hb := hnone r hr
      simp [ha] at hb
  · simp only [h1, if_false]
    have hne : rs ≠ [] := by rintro rfl; simp at h1
    have hnotall : ¬ ∀ r ∈ rs, p r = true :=
      fun hall => h1 ((filter_length_eq_iff p rs).mpr hall)
    by_cases h2 : 0 < (rs.filter p).length
    · have hsome := (filter_length_pos_iff p rs).mp h2
      have hfail : ∃ r ∈ rs, p r = false := by
        by_contra hc
        push_neg at hc
        exact hnotall fun r hr => by
          have := hc r hr
          cases hpr : p r with
          | false => exact absurd hpr this
          | true => rfl
      simp only [h2, if_true]
      refine ⟨iff_of_false (by decide) hnotall, ⟨fun _ => ⟨hsome, hfail⟩, fun _ => trivial⟩,
        iff_of_false (by decide) ?_⟩
      rintro ⟨-, hnone⟩
      rcases hsome with ⟨r, hr, htrue⟩
      have := hnone r hr
      simp [htrue] at this
    · have hzero : (rs.filter p).length = 0 := Nat.eq_zero_of_not_pos h2
      have hnonef := (filter_length_zero_iff p rs).mp hzero
      simp only [h2, if_false]
      refine ⟨iff_of_false (by decide) hnotall, iff_of_false (by decide) ?_,
        ⟨fun _ => ⟨hne, hnonef⟩, fun _ => trivial⟩⟩
      rintro ⟨⟨r, hr, htrue⟩, -⟩
      have := hnonef r hr
      simp [htrue] at this

/-- The authoritative entry of the C2 witness. -/
def c2wEntry : ExcelEntry :=
  { rowNumber := 3, brand := "Tesla", model := "Model 3", variant := "Long Range",
    price := "190,000", specs := [] }

/-- The scraped source of the C2 witness. -/
def c2wSource : ScrapedSource :=
  { source := "siteA", price := "189,900", specs := [],
    variants := ["Standard Range", "Long Range AWD"] }

/-- C2 witness: one source reporting a containing variant yields `"match"`. -/
theorem c2_variant_tristate_witness :
    (compareEntry c2wEntry [c2wSource]).variantCheck.status = "match" :=
  ((c2_variant_tristate c2wEntry [c2wSource]).1).mpr (by decide)

/-- C3 counterexample: a source supplied an (unparseable) price while the
authoritative price is unparseable too; the claim demands `"missing"`, but the
code returns `"mismatch"` — `"missing"` is reserved for the no-source case. -/
theorem c3_counterexample :
    extractNumbers "abc" = [] ∧
    (comparePriceField "abc" [("siteA", "xyz")]).status = "mismatch" := by decide

/-- C3 (amended): the price status is `"missing"` exactly when no source
supplied a price value; when at least one source supplied a value but no
numeric token could be parsed from the authoritative string or from the
scraped strings, the status is `"mismatch"`, not `"missing"`. -/
theorem c3_missing_iff_no_source (excelValue : String)
    (scrapedValues : List (String × String)) :
    ((comparePriceField excelValue scrapedValues).status = "missing" ↔ scrapedValues = []) ∧
    (scrapedValues ≠ [] →
      (extractNumbers excelValue = [] ∨ allScrapedNums scrapedValues = []) →
      (comparePriceField excelValue scrapedValues).status = "mismatch") := by
  cases scrapedValues with
  | nil => simp [comparePriceField]
  | cons q qs =>
    simp only [comparePriceField, List.length_map, List.length_cons]
    rw [if_neg (by omega)]
    by_cases he : (extractNumbers excelValue).length = 0
    · rw [if_pos he]
      exact ⟨by simp, fun _ _ => rfl⟩
    · rw [if_neg he]
      by_cases hnums : (allScrapedNums (q :: qs)).length = 0
      · rw [if_pos hnums]
        exact ⟨by simp, fun _ _ => rfl⟩
      · rw [if_neg hnums]
        constructor
        · split_ifs with hin
          · simp
          · simp
        · intro hne hdis
          rcases hdis with hd | hd
          · exact absurd (by simp [hd]) he
          · exact absurd (by simp [hd]) hnums

/-- C3 witness: an empty scraped mapping yields `"missing"`. -/
theorem c3_missing_iff_no_source_witness :
    (comparePriceField "174,000" []).status = "missing" :=
  ((c3_missing_iff_no_source "174,000" []).1).mpr rfl

/-- C4: generic field comparison — status is `"missing"` iff no source
supplied the field; otherwise `"match"` iff every supplying source agrees
(normalized or canonical equality) and `"mismatch"` iff at least one
supplying source disagrees (covering both the mixed case and the
none-match case). -/
theorem c4_generic_field (excelValue : String) (scrapedValues : List (String × String)) :
    ((compareField excelValue scrapedValues).status = "missing" ↔ scrapedValues = []) ∧
    (scrapedValues ≠ [] →
      (((compareField excelValue scrapedValues).status = "match") ↔
        ∀ p ∈ scrapedValues, fieldValueAgrees excelValue p.2 = true) ∧
      (((compareField excelValue scrapedValues).status = "mismatch") ↔
        ∃ p ∈ scrapedValues, fieldValueAgrees excelValue p.2 = false)) := by
  cases scrapedValues with
  | nil => simp [compareField]
  | cons q qs =>
    simp only [compareField, List.length_map, List.length_cons]
    rw [if_neg (by omega)]
    refine ⟨by split_ifs <;> simp, fun _ => ?_⟩
    by_cases hY : ((q :: qs).any fun p => ! fieldValueAgrees excelValue p.2) = true
    · have hfail : ∃ p ∈ q :: qs, fieldValueAgrees excelValue p.2 = false := by
        rcases List.any_eq_true.mp hY with ⟨p, hp, hb⟩
        exact ⟨p, hp, by simpa using hb⟩
      have hnotall : ¬ ∀ p ∈ q :: qs, fieldValueAgrees excelValue p.2 = true := by
        rcases hfail with ⟨p, hp, hb⟩
        intro hall
        have := hall p hp
        simp [this] at hb
      rw [hY]
      simp only [Bool.not_true, Bool.and_false, Bool.and_true]
      rw [if_neg (by simp)]
      split_ifs with hX
      · exact ⟨iff_of_false (by simp) hnotall, iff_of_true rfl hfail⟩
      · exact ⟨iff_of_false (by simp) hnotall, iff_of_true rfl hfail⟩
    · have hY2 : ((q :: qs).any fun p => ! fieldValueAgrees excelValue p.2) = false :=
        Bool.eq_false_iff.mpr hY
      have hall : ∀ p ∈ q :: qs, fieldValueAgrees excelValue p.2 = true := by
        intro p hp
        by_contra hc
        exact hY (List.any_eq_true.mpr ⟨p, hp, by simp [Bool.eq_false_iff.mpr hc]⟩)
      have hX : ((q :: qs).any fun p => fieldValueAgrees excelValue p.2) = true :=
        List.any_eq_true.mpr ⟨q, List.mem_cons_self q qs, hall q (List.mem_cons_self q qs)⟩
      rw [hX, hY2]
      rw [if_pos (by simp)]
      refine ⟨iff_of_true rfl hall, iff_of_false (by simp) ?_⟩
      rintro ⟨p, hp, hb⟩
      have := hall p hp
      simp [this] at hb

/-- C4 witness: two sources that both agree with the authoritative value
(one via the canonical-synonym route) yield `"match"`. -/
theorem c4_generic_field_witness :
    (compareField "RWD" [("siteA", "Rear-Wheel Drive"), ("siteB", "rwd")]).status = "match" :=
  (((c4_generic_field "RWD" [("siteA", "Rear-Wheel Drive"), ("siteB", "rwd")]).2
    (by decide)).1).mpr (by decide)

/-- C5: the orchestrator is total by construction (it is a Lean function over
total collaborator oracles, mirroring how the source absorbs every failure
into a value), and when the resolved profile is not disabled and every
strategy misses — the API oracle always misses, every fetch returns the empty
string, the browser oracle always misses — `scrapeEvData` returns the
terminal result with strategy tag `"none"` and an entirely empty payload
instead of raising an error. -/
theorem c5_all_miss_terminal (env : ScrapeEnv) (url : String)
    (siteKey brand model : Option String)
    (hapi : ∀ k ac b m, env.apiFetch k ac b m = none)
    (hfetch : ∀ u, env.fetchHtml u = "")
    (hbr : ∀ u k c, env.browserScrape u k c = none)
    (hdis : ∀ c, loadSiteConfig env (resolveKey env url siteKey) = some c →
      c.disabled = false) :
    scrapeEvData env url siteKey brand model =
      { source := resolveKey env url siteKey, url := url, data := emptyCarData,
        rawText := "", strategy := some "none" } := by
  simp only [scrapeEvData, scrapeEvDataC]
  by_cases hu : (resolveKey env url siteKey != "unknown") = true
  · rw [if_pos hu]
    rcases hcf : loadSiteConfig env (resolveKey env url siteKey) with _ | c
    · rw [if_neg (by simp)]
      exact waterfall_all_miss env url (resolveKey env url siteKey) brand model none
        hapi (hfetch url) hbr _
    · rw [if_neg (by simp [hdis c hcf])]
      exact waterfall_all_miss env url (resolveKey env url siteKey) brand model (some c)
        hapi (hfetch url) hbr _
  · rw [if_neg hu, if_neg (by simp)]
    exact waterfall_all_miss env url (resolveKey env url siteKey) brand model none
      hapi (hfetch url) hbr _

/-- An environment in which every collaborator misses. -/
def c5Env : ScrapeEnv :=
  { configs := [], hostnameOf := fun _ => none, fetchHtml := fun _ => "",
    cheerioExtract := fun _ _ => none, apiFetch := fun _ _ _ _ => none,
    browserScrape := fun _ _ _ => none }

/-- C5 witness: with no configs and all oracles missing, the result is the
`"none"`-tagged terminal value for the `"unknown"` source. -/
theorem c5_all_miss_terminal_witness :
    scrapeEvData c5Env "https://example.com/ev" none none none =
      { source := "unknown", url := "https://example.com/ev", data := emptyCarData,
        rawText := "", strategy := some "none" } :=
  c5_all_miss_terminal c5Env "https://example.com/ev" none none none
    (fun _ _ _ _ => rfl) (fun _ => rfl) (fun _ _ _ => rfl)
    (fun c hc => by simp [c5Env, loadSiteConfig] at hc)

/-- C6: the computed strategy order lists the profile's preferred strategy
(if any) first, followed by the remaining strategies in the fixed default
order, each of the three appearing exactly once; with no preferred strategy
it is exactly the default order, and with preferred strategy static-html
(`cheerio`) it is exactly static-html, api, headless-browser. -/
theorem c6_strategy_order (config : Option SiteConfig) :
    (∀ s : Strategy, (getStrategyOrder config).count s = 1) ∧
    (config.bind SiteConfig.preferredStrategy = none →
      getStrategyOrder config = defaultStrategyOrder) ∧
    (∀ p : Strategy, config.bind SiteConfig.preferredStrategy = some p →
      getStrategyOrder config = p :: defaultStrategyOrder.filter fun s => s != p) ∧
    (config.bind SiteConfig.preferredStrategy = some Strategy.cheerio →
      getStrategyOrder config = [Strategy.cheerio, Strategy.api, Strategy.playwright]) := by
  refine ⟨?_, ?_, ?_, ?_⟩
  · cases h : config.bind SiteConfig.preferredStrategy with
    | none => simp only [getStrategyOrder, h]; decide
    | some p => cases p <;> simp only [getStrategyOrder, h] <;> decide
  · intro h
    simp only [getStrategyOrder, h]
  · intro p h
    simp only [getStrategyOrder, h]
  · intro h
    simp only [getStrategyOrder, h]
    decide

/-- A profile preferring the static-html strategy. -/
def c6Config : SiteConfig :=
  { name := "x", baseUrl := "https://x.example", preferredStrategy := some .cheerio }

/-- C6 witness: preferred static-html gives [static-html, api, headless-browser]. -/
theorem c6_strategy_order_witness :
    getStrategyOrder (some c6Config) = [Strategy.cheerio, Strategy.api, Strategy.playwright] :=
  (c6_strategy_order (some c6Config)).2.2.2 rfl

/-- The extraction of the C7 counterexample: variants populated, every other
structured field empty, body text under 100 characters. -/
def c7Extract : CheerioExtract :=
  { title := "", price := "", specs := [], variants := ["Long Range"],
    bodyText := "too short" }

/-- The environment of the C7 counterexample. -/
def c7Env : ScrapeEnv :=
  { configs := [], hostnameOf := fun _ => none, fetchHtml := fun _ => "<html>",
    cheerioExtract := fun _ _ => some c7Extract,
    apiFetch := fun _ _ _ _ => none, browserScrape := fun _ _ _ => none }

/-- C7 counterexample: a page whose only populated structured field is the
variant list still misses (the code's `hasData` check never consults
variants), so the claimed iff — which counts variants among the structured
fields and uses a strict below-100 bound — fails at this input. -/
theorem c7_counterexample :
    ¬ ((scrapeWithCheerio c7Env "https://example.com/x" "sitekey" none = none) ↔
        (c7Extract.title = "" ∧ c7Extract.price = "" ∧ c7Extract.specs = [] ∧
         c7Extract.variants = [] ∧ (cheerioRawText c7Extract).length < 100)) := by decide

/-- C7 (amended): for a non-empty fetched document whose selection step
produced `ex`, the static-HTML strategy misses iff title, price and specs are
all unpopulated and the collapsed fallback text is at most 100 characters
(variants play no role; exactly 100 characters is still a miss); any returned
result carries the structured fields — variants included — and the fallback
text truncated to 8,000 characters. -/
theorem c7_cheerio_miss (env : ScrapeEnv) (url siteKey : String)
    (config : Option SiteConfig) (ex : CheerioExtract)
    (hhtml : env.fetchHtml url ≠ "")
    (hex : env.cheerioExtract (env.fetchHtml url) config = some ex) :
    (scrapeWithCheerio env url siteKey config = none ↔
      (ex.title = "" ∧ ex.price = "" ∧ ex.specs = [] ∧
        (cheerioRawText ex).length ≤ 100)) ∧
    (∀ r, scrapeWithCheerio env url siteKey config = some r →
      r = { source := siteKey, url := url,
            data := { title := ex.title, price := ex.price, specs := ex.specs,
                      variants := ex.variants },
            rawText := cheerioRawText ex, strategy := some "cheerio" }) := by
  simp only [scrapeWithCheerio]
  rw [if_neg hhtml]
  simp only [hex]
  by_cases h : (ex.title != "" || ex.price != "" || decide (0 < ex.specs.length) ||
      decide (100 < (cheerioRawText ex).length)) = true
  · rw [if_pos h]
    constructor
    · refine iff_of_false (by simp) ?_
      rintro ⟨ht, hp, hs, hlen⟩
      simp only [Bool.or_eq_true, bne_iff_ne, ne_eq, decide_eq_true_eq] at h
      rcases h with ((hh | hh) | hh) | hh
      · exact hh ht
      · exact hh hp
      · rw [hs] at hh
        simp at hh
      · omega
    · intro r hr
      exact (Option.some.inj hr).symm
  · rw [if_neg h]
    simp only [Bool.or_eq_true, bne_iff_ne, ne_eq, decide_eq_true_eq, not_or, not_lt,
      not_not] at h
    obtain ⟨⟨⟨ht, hp⟩, hs⟩, hlen⟩ := h
    refine ⟨iff_of_true rfl ⟨ht, hp, ?_, hlen⟩, fun r hr => by cases hr⟩
    have : ex.specs.length = 0 := by omega
    exact List.length_eq_zero.mp this

/-- The extraction of the C7 witness: nothing populated, tiny body text. -/
def c7wExtract : CheerioExtract :=
  { title := "", price := "", specs := [], variants := [], bodyText := "x y" }

/-- The environment of the C7 witness. -/
def c7wEnv : ScrapeEnv :=
  { configs := [], hostnameOf := fun _ => none, fetchHtml := fun _ => "<html>",
    cheerioExtract := fun _ _ => some c7wExtract,
    apiFetch := fun _ _ _ _ => none, browserScrape := fun _ _ _ => none }

/-- C7 witness: an empty extraction over a short page is a miss. -/
theorem c7_cheerio_miss_witness :
    scrapeWithCheerio c7wEnv "https://example.com/y" "k" none = none :=
  ((c7_cheerio_miss c7wEnv "https://example.com/y" "k" none c7wExtract
    (by decide) rfl).1).mpr (by decide)

/-- C8: a target resolving to a disabled profile short-circuits to the
`"skipped-disabled"` sentinel with an entirely empty payload, and the
strategy-invocation counter stays at zero — no extraction strategy (and hence
no network activity) is ever invoked. -/
theorem c8_disabled_short_circuit (env : ScrapeEnv) (url : String)
    (siteKey brand model : Option String) (c : SiteConfig)
    (hk : resolveKey env url siteKey ≠ "unknown")
    (hc : loadSiteConfig env (resolveKey env url siteKey) = some c)
    (hd : c.disabled = true) :
    scrapeEvDataC env url siteKey brand model =
      ({ source := resolveKey env url siteKey, url := url, data := emptyCarData,
         rawText := "", strategy := some "skipped-disabled" }, 0) := by
  simp only [scrapeEvDataC]
  rw [if_pos (bne_iff_ne.mpr hk), hc]
  rw [if_pos (by simp [hd])]

/-- The disabled profile of the C8 witness. -/
def c8Config : SiteConfig :=
  { name := "Disabled Site", baseUrl := "https://dis.example", disabled := true,
    disabledReason := some "maintenance" }

/-- The environment of the C8 witness. -/
def c8Env : ScrapeEnv :=
  { configs := [("dis", c8Config)], hostnameOf := fun _ => none,
    fetchHtml := fun _ => "", cheerioExtract := fun _ _ => none,
    apiFetch := fun _ _ _ _ => none, browserScrape := fun _ _ _ => none }

/-- C8 witness: an explicitly keyed disabled site yields the sentinel result
and a zero invocation count. -/
theorem c8_disabled_short_circuit_witness :
    scrapeEvDataC c8Env "https://dis.example/car" (some "dis") none none =
      ({ source := "dis", url := "https://dis.example/car", data := emptyCarData,
         rawText := "", strategy := some "skipped-disabled" }, 0) :=
  c8_disabled_short_circuit c8Env "https://dis.example/car" (some "dis") none none
    c8Config (by decide) (by decide) rfl

/-- C9: word-boundary value normalization — unit/currency tokens are removed
only as whole words: normalizing "Tesla" keeps the trailing letters and
yields "tesla", and normalizing "AED 189,900" gives the same canonical form
as normalizing "189900". -/
theorem c9_word_boundary_normalization :
    normalizeValue "Tesla" = "tesla" ∧
      normalizeValue "AED 189,900" = normalizeValue "189900" := by decide

/-- C10: numeric extraction keeps only strictly positive values, so an
authoritative price whose only numeric token is "0" parses to nothing and the
price status is `"mismatch"` — never `"match"` — even against a scraped
string whose raw range contains 0. -/
theorem c10_positive_extraction :
    (∀ (s : String) (n : ℚ), n ∈ extractNumbers s → 0 < n) ∧
    extractNumbers "0" = [] ∧
    (comparePriceField "0" [("siteA", "0 - 100")]).status = "mismatch" := by
  refine ⟨?_, by decide, by decide⟩
  intro s n hn
  unfold extractNumbers at hn
  exact of_decide_eq_true (List.mem_filter.mp hn).2

/-- C10 witness: the number extracted from "AED 149,900" is positive. -/
theorem c10_positive_extraction_witness : (0:ℚ) < 149900 :=
  c10_positive_extraction.1 "AED 149,900" 149900 (by decide)

end DriveEV
